import Mathlib

/-!
Verification of the OCR / scanning pipeline of the omni_pdf repository.

The definitions below are shallow embeddings of the Python sources:
  * `src/features/ocr.py`    — `convert_pdf_to_ocr` (text mode and searchable-PDF
    mode), the per-page OCR fallback decision, per-line coordinate mapping,
    font-size clamping and the markdown page separator;
  * `src/features/scanner.py` — `detect_document_edges`,
    `apply_perspective_correction`, `enhance_document_image` and the crop
    clamping inside `process_image`.

External libraries (PyMuPDF, PaddleOCR, OpenCV, PIL) are modelled as oracles:
abstract functions or `Except`-valued fields describing whether the library
call succeeded, mirroring the `try/except` structure of the code.
Machine floats are modelled by exact rationals.
-/

/-! ## ocr.py: output types and the OCR fallback decision -/

/-- The `output_type` argument of `convert_pdf_to_ocr` (`'text'` or `'pdf'`). -/
inductive OutputType
  | text
  | pdf
  deriving DecidableEq

/-- The `output_format` argument of `convert_pdf_to_ocr` (`'txt'` or `'md'`). -/
inductive OutputFormat
  | txt
  | md
  deriving DecidableEq

/-- One recognized line, as produced by `ocr_pdf_page` and consumed by the
layering code: the bounding box `[x0, y0, x1, y1]` in image pixel
coordinates, the recognized text and the confidence score
(`[bbox, (text, score)]` in the Python result). -/
structure OcrLine where
  x0 : ℚ
  y0 : ℚ
  x1 : ℚ
  y1 : ℚ
  text : String
  score : ℚ
  deriving DecidableEq

/-- Truthiness of Python's `basic_text.strip()`: the string contains at
least one non-whitespace character. -/
def hasInk (s : String) : Bool := s.data.any (fun c => !c.isWhitespace)

/-- The `use_ocr` decision of `convert_pdf_to_ocr` (ocr.py lines 70-82):
`use_ocr = force_ocr`; in text mode without force-OCR, direct extraction is
attempted and OCR is taken only when `basic_text and basic_text.strip()` is
falsy; in pdf mode `use_ocr` is unconditionally set to `True`. -/
def useOcrFor (ot : OutputType) (forceOcr : Bool) (basicText : String) : Bool :=
  if forceOcr = false ∧ ot = OutputType.text then
    (if basicText ≠ "" ∧ hasInk basicText then forceOcr else true)
  else if ot = OutputType.pdf then true
  else forceOcr

/-- A source page, as seen by the text-mode loop of `convert_pdf_to_ocr`:
`basicText` is what `page.get_text()` returns, and `ocrChain` is the outcome
of the OCR `try` block (ocr.py lines 86-116): either the recognized lines or
the exception caught at line 118. -/
structure Page where
  basicText : String
  ocrChain : Except Unit (List OcrLine)

/-- Text accumulated from the OCR result in text mode (ocr.py lines 110-123):
each line's text followed by a newline, or the in-band error placeholder
written by the `except` handler. -/
def ocrText (r : Except Unit (List OcrLine)) (pageNum : ℕ) : String :=
  match r with
  | Except.ok lines => (lines.map (fun l => l.text ++ "\n")).foldl (· ++ ·) ""
  | Except.error _ => "[OCR Error on page " ++ toString (pageNum + 1) ++ "]"

/-- `page_text` for one page in text mode: the directly extracted text when
the fallback decision keeps it, otherwise the OCR chain's text. -/
def pageTextOf (forceOcr : Bool) (pg : Page) (pageNum : ℕ) : String :=
  if useOcrFor OutputType.text forceOcr pg.basicText then ocrText pg.ocrChain pageNum
  else pg.basicText

/-- The markdown page separator appended in text mode (ocr.py line 130). -/
def mdSeparator : String := "\n\n---\n\n"

/-- The contribution of one page to `all_text` (ocr.py lines 127-130): the
page text, followed by the separator only when `output_format == 'md'`. -/
def chunkOf (forceOcr : Bool) (fmt : OutputFormat) (pg : Page) (pageNum : ℕ) : String :=
  pageTextOf forceOcr pg pageNum ++ (if fmt = OutputFormat.md then mdSeparator else "")

/-- The page loop of text mode, accumulating `all_text` starting from page
index `n`. -/
def allTextFrom (forceOcr : Bool) (fmt : OutputFormat) : List Page → ℕ → String
  | [], _ => ""
  | pg :: rest, n => chunkOf forceOcr fmt pg n ++ allTextFrom forceOcr fmt rest (n + 1)

/-- The complete text written to the output file by `convert_pdf_to_ocr` in
text mode (ocr.py lines 66-130 and 309-312). -/
def convertText (forceOcr : Bool) (fmt : OutputFormat) (pages : List Page) : String :=
  allTextFrom forceOcr fmt pages 0

/-- Whether the text-mode loop used the OCR chain for this page. -/
def textPageUsesOcr (forceOcr : Bool) (pg : Page) : Bool :=
  useOcrFor OutputType.text forceOcr pg.basicText

/-- Whether the except-handler at ocr.py line 118 fired for this page in text
mode: the page went through OCR and the chain raised. -/
def textPageFailed (forceOcr : Bool) (pg : Page) : Bool :=
  textPageUsesOcr forceOcr pg &&
    (match pg.ocrChain with
     | Except.ok _ => false
     | Except.error _ => true)

/-- The number of pages of a document on which the text-mode OCR error
handler fired. -/
def failedPageCount (forceOcr : Bool) (pages : List Page) : ℕ :=
  (pages.filter (fun pg => textPageFailed forceOcr pg)).length

/-! ## ocr.py: coordinate mapping and font sizing for searchable-PDF mode -/

/-- The lower font-size clamp bound (ocr.py line 286: `if font_size < 4`). -/
def minFontSize : ℚ := 4

/-- The upper font-size clamp bound (ocr.py line 287: `if font_size > 30`). -/
def maxFontSize : ℚ := 30

/-- The font-size computation of the layering loop (ocr.py lines 285-287):
`font_size = pdf_rect.height * 0.8`, then the two sequential clamping
conditionals. -/
def fontSizeFor (h : ℚ) : ℚ :=
  let f := h * (4 / 5)
  let f2 := if f < minFontSize then minFontSize else f
  if maxFontSize < f2 then maxFontSize else f2

/-- One invisible text run inserted on an output page: the insertion point
(`pdf_rect.x0`, `pdf_rect.y0`), the computed font size and the line text. -/
structure TextRun where
  posX : ℚ
  posY : ℚ
  fontsize : ℚ
  text : String
  deriving DecidableEq

/-- Mapping of one recognized line into PDF point space (ocr.py lines
277-291): scale factors `page.rect.width / pix.width` and
`page.rect.height / pix.height`, the mapped rectangle, the clamped font size
from the mapped height, and the top-left insertion point. -/
def mapLine (pageW pageH pixW pixH : ℚ) (l : OcrLine) : TextRun :=
  let sx := pageW / pixW
  let sy := pageH / pixH
  { posX := l.x0 * sx
    posY := l.y0 * sy
    fontsize := fontSizeFor (l.y1 * sy - l.y0 * sy)
    text := l.text }

/-! ## Claims C1 and C4 -/

/-- Claim C1: in text mode with `force_ocr = False`, `convert_pdf_to_ocr`
runs OCR on a page exactly when the page's directly extracted text is empty
or whitespace-only; a page with non-whitespace extracted text uses that text
verbatim; and in searchable-PDF mode every page goes through the OCR chain
unconditionally, whatever text it already carries. -/
theorem ocr_fallback_policy (basicText : String) (pg : Page) (n : ℕ) :
    (useOcrFor OutputType.text false basicText = true ↔ hasInk basicText = false) ∧
    (hasInk pg.basicText = true → pageTextOf false pg n = pg.basicText) ∧
    (∀ (forceOcr : Bool) (t : String), useOcrFor OutputType.pdf forceOcr t = true) := by
  have hink_ne : ∀ t : String, hasInk t = true → t ≠ "" := by
    intro t ht he
    rw [he] at ht
    exact Bool.false_ne_true ht
  refine ⟨?_, ?_, ?_⟩
  · unfold useOcrFor
    by_cases h : hasInk basicText = true
    · simp [hink_ne basicText h, h]
    · have hf : hasInk basicText = false := by
        cases hb : hasInk basicText
        · rfl
        · exact absurd hb h
      simp [hf]
  · intro hink
    unfold pageTextOf useOcrFor
    simp [hink_ne pg.basicText hink, hink]
  · intro forceOcr t
    unfold useOcrFor
    simp

/-- Witness for C1 at a concrete page: "hello" has non-whitespace text, so
text mode keeps it verbatim and never invokes OCR, while pdf mode still
forces OCR. -/
theorem ocr_fallback_policy_witness :
    pageTextOf false ⟨"hello", Except.error ()⟩ 0 = "hello" ∧
    useOcrFor OutputType.pdf false "hello" = true := by
  refine ⟨?_, ?_⟩
  · exact (ocr_fallback_policy "hello" ⟨"hello", Except.error ()⟩ 0).2.1 (by decide)
  · exact (ocr_fallback_policy "hello" ⟨"hello", Except.error ()⟩ 0).2.2 false "hello"

/-- Claim C4: the computed font size equals the mapped bounding-box height
times 0.8 clamped to `[minFontSize, maxFontSize]` (defaults 4pt and 30pt in
the source), so the size passed to `insert_text` always lies within that
range, even for degenerate heights; and `mapLine`'s font size is exactly
this clamp applied to the mapped box height. -/
theorem font_size_clamped (h : ℚ) (pageW pageH pixW pixH : ℚ) (l : OcrLine) :
    fontSizeFor h = max minFontSize (min maxFontSize (h * (4 / 5))) ∧
    minFontSize ≤ fontSizeFor h ∧ fontSizeFor h ≤ maxFontSize ∧
    (mapLine pageW pageH pixW pixH l).fontsize =
      fontSizeFor (l.y1 * (pageH / pixH) - l.y0 * (pageH / pixH)) := by
  have hmm : minFontSize ≤ maxFontSize := by norm_num [minFontSize, maxFontSize]
  have key : fontSizeFor h = max minFontSize (min maxFontSize (h * (4 / 5))) := by
    unfold fontSizeFor
    set f := h * (4 / 5) with hf
    by_cases h1 : f < minFontSize
    · have hmin : min maxFontSize f = f := min_eq_right (le_of_lt (lt_of_lt_of_le h1 hmm))
      have hmax : max minFontSize f = minFontSize := max_eq_left (le_of_lt h1)
      have h2 : ¬ maxFontSize < minFontSize := not_lt.mpr hmm
      simp only [if_pos h1, if_neg h2, hmin, hmax]
    · by_cases h2 : maxFontSize < f
      · have hmin : min maxFontSize f = maxFontSize := min_eq_left (le_of_lt h2)
        have hmax : max minFontSize maxFontSize = maxFontSize := max_eq_right hmm
        simp only [if_neg h1, if_pos h2, hmin, hmax]
      · have hmin : min maxFontSize f = f := min_eq_right (not_lt.mp h2)
        have hmax : max minFontSize f = f := max_eq_right (not_lt.mp h1)
        simp only [if_neg h1, if_neg h2, hmin, hmax]
  refine ⟨key, ?_, ?_, rfl⟩
  · rw [key]
    exact le_max_left _ _
  · rw [key]
    exact max_le hmm (min_le_left _ _)

/-! ## scanner.py: corner canonicalization and perspective correction -/

/-- A pixel coordinate pair `(x, y)` of a detected corner (int32 in the
source). -/
abbrev CornerPoint : Type := ℤ × ℤ

/-- `corners.sum(axis=1)`: the coordinate sum of a point. -/
def psum (p : CornerPoint) : ℤ := p.1 + p.2

/-- `np.diff(corners, axis=1)`: the coordinate difference `y - x`. -/
def pdiff (p : CornerPoint) : ℤ := p.2 - p.1

/-- `np.argmin` over a keyed list, returning the selected element: the first
element attaining the minimal key, as numpy does. -/
def argminKey {α : Type} (f : α → ℤ) : List α → Option α
  | [] => none
  | a :: l =>
    match argminKey f l with
    | none => some a
    | some b => if f a ≤ f b then some a else some b

/-- `np.argmax` over a keyed list, returning the selected element: the first
element attaining the maximal key, as numpy does. -/
def argmaxKey {α : Type} (f : α → ℤ) (l : List α) : Option α :=
  argminKey (fun a => -(f a)) l

/-- The canonical corner ordering computed by
`apply_perspective_correction` (scanner.py lines 80-92). -/
structure RectOrder where
  tl : CornerPoint
  tr : CornerPoint
  br : CornerPoint
  bl : CornerPoint
  deriving DecidableEq

/-- scanner.py lines 84-92: `rect[0] = corners[argmin(s)]`,
`rect[2] = corners[argmax(s)]`, `rect[1] = corners[argmin(diff)]`,
`rect[3] = corners[argmax(diff)]`. -/
def orderPoints (corners : List CornerPoint) : Option RectOrder :=
  match argminKey psum corners, argmaxKey psum corners,
        argminKey pdiff corners, argmaxKey pdiff corners with
  | some tl, some br, some tr, some bl => some ⟨tl, tr, br, bl⟩
  | _, _, _, _ => none

/-- `int(np.sqrt((ax-bx)**2 + (ay-by)**2))`: the truncated Euclidean
distance between two corners. -/
def idist (p q : CornerPoint) : ℕ :=
  Nat.sqrt (((p.1 - q.1) ^ 2 + (p.2 - q.2) ^ 2).toNat)

/-- `max_width` (scanner.py lines 95-97): the larger of the two truncated
opposite-edge lengths `dist(rect[2], rect[3])` and `dist(rect[1], rect[0])`. -/
def maxWidthOf (r : RectOrder) : ℕ := max (idist r.br r.bl) (idist r.tr r.tl)

/-- `max_height` (scanner.py lines 99-101): the larger of
`dist(rect[1], rect[2])` and `dist(rect[0], rect[3])`. -/
def maxHeightOf (r : RectOrder) : ℕ := max (idist r.tr r.br) (idist r.tl r.bl)

/-- `apply_perspective_correction` (scanner.py lines 77-119). The OpenCV
calls `cv2.getPerspectiveTransform` / `cv2.warpPerspective` are abstracted
as the oracle `warp`, which receives the canonically ordered rectangle and
the target size (the destination points are a function of that size) and
either produces the warped raster or raises. Every caught exception —
a malformed corner array (`reshape(4, 2)` fails when there are not exactly
four corners) or a singular/degenerate transform — returns the input raster
unchanged. -/
def applyPerspectiveCorrection {α : Type}
    (warp : RectOrder → ℕ → ℕ → α → Except Unit α)
    (img : α) (corners : List CornerPoint) : α :=
  if corners.length = 4 then
    match orderPoints corners with
    | none => img
    | some rect =>
      match warp rect (maxWidthOf rect) (maxHeightOf rect) img with
      | Except.ok out => out
      | Except.error _ => img
  else img

/-! ### argmin/argmax facts needed for C2 -/

theorem argminKey_eq_none {α : Type} (f : α → ℤ) (l : List α) :
    argminKey f l = none ↔ l = [] := by
  cases l with
  | nil => simp [argminKey]
  | cons a t =>
    cases ht : argminKey f t with
    | none => simp [argminKey, ht]
    | some b =>
      simp only [argminKey, ht]
      by_cases hle : f a ≤ f b
      · simp [hle]
      · simp [hle]

theorem argminKey_mem {α : Type} (f : α → ℤ) :
    ∀ {l : List α} {a : α}, argminKey f l = some a → a ∈ l := by
  intro l
  induction l with
  | nil => intro a h; exact absurd h (by simp [argminKey])
  | cons x t ih =>
    intro a h
    cases ht : argminKey f t with
    | none =>
      simp only [argminKey, ht, Option.some.injEq] at h
      subst h
      exact List.mem_cons_self x t
    | some b =>
      simp only [argminKey, ht] at h
      by_cases hle : f x ≤ f b
      · rw [if_pos hle, Option.some.injEq] at h
        subst h
        exact List.mem_cons_self x t
      · rw [if_neg hle, Option.some.injEq] at h
        subst h
        exact List.mem_cons_of_mem x (ih ht)

theorem argminKey_le {α : Type} (f : α → ℤ) :
    ∀ {l : List α} {a : α}, argminKey f l = some a → ∀ b ∈ l, f a ≤ f b := by
  intro l
  induction l with
  | nil => intro a h; exact absurd h (by simp [argminKey])
  | cons x t ih =>
    intro a h b hb
    cases ht : argminKey f t with
    | none =>
      have htnil : t = [] := (argminKey_eq_none f t).mp ht
      subst htnil
      simp only [argminKey, Option.some.injEq] at h
      subst h
      rcases List.mem_singleton.mp hb with rfl
      exact le_refl _
    | some c =>
      simp only [argminKey, ht] at h
      rcases List.mem_cons.mp hb with hbx | hbt
      · rw [hbx]
        by_cases hle : f x ≤ f c
        · rw [if_pos hle, Option.some.injEq] at h
          subst h
          exact le_refl _
        · rw [if_neg hle, Option.some.injEq] at h
          subst h
          exact le_of_lt (lt_of_not_le hle)
      · by_cases hle : f x ≤ f c
        · rw [if_pos hle, Option.some.injEq] at h
          subst h
          exact le_trans hle (ih ht b hbt)
        · rw [if_neg hle, Option.some.injEq] at h
          subst h
          exact ih ht b hbt

/-- On lists with pairwise-distinct key values, `argminKey` is invariant
under permutation of the list. -/
theorem argminKey_perm {α : Type} (f : α → ℤ) {l l' : List α}
    (hp : l.Perm l')
    (hinj : ∀ a ∈ l, ∀ b ∈ l, f a = f b → a = b) :
    argminKey f l = argminKey f l' := by
  cases hl : l with
  | nil =>
    subst hl
    have : l' = [] := hp.symm.eq_nil
    rw [this]
  | cons x t =>
    subst hl
    have hl' : l' ≠ [] := by
      intro h
      subst h
      exact absurd hp.eq_nil (by simp)
    obtain ⟨a, ha⟩ : ∃ a, argminKey f (x :: t) = some a := by
      cases h : argminKey f (x :: t) with
      | none => exact absurd ((argminKey_eq_none f _).mp h) (by simp)
      | some a => exact ⟨a, rfl⟩
    obtain ⟨a', ha'⟩ : ∃ a', argminKey f l' = some a' := by
      cases h : argminKey f l' with
      | none => exact absurd ((argminKey_eq_none f _).mp h) hl'
      | some a' => exact ⟨a', rfl⟩
    have hma : a ∈ x :: t := argminKey_mem f ha
    have hma' : a' ∈ x :: t := hp.symm.subset (argminKey_mem f ha')
    have h1 : f a ≤ f a' := argminKey_le f ha a' hma'
    have h2 : f a' ≤ f a := argminKey_le f ha' a (hp.subset hma)
    have : a = a' := hinj a hma a' hma' (le_antisymm h1 h2)
    rw [ha, ha', this]

/-! ## Claims C2 and C5 -/

/-- Claim C2: for a quadrilateral whose four corners have pairwise-distinct
coordinate sums and pairwise-distinct coordinate differences,
`apply_perspective_correction` derives the same canonical
(top-left, top-right, bottom-right, bottom-left) ordering — and hence the
same rectified output — for every permutation of the input corners: the
order is recomputed from coordinate sums and differences, never taken from
the input order. -/
theorem corner_order_perm_invariant {l l' : List CornerPoint} (hp : l.Perm l')
    (hs : ∀ a ∈ l, ∀ b ∈ l, psum a = psum b → a = b)
    (hd : ∀ a ∈ l, ∀ b ∈ l, pdiff a = pdiff b → a = b) :
    orderPoints l = orderPoints l' ∧
    ∀ {α : Type} (warp : RectOrder → ℕ → ℕ → α → Except Unit α) (img : α),
      applyPerspectiveCorrection warp img l = applyPerspectiveCorrection warp img l' := by
  have hsneg : ∀ a ∈ l, ∀ b ∈ l, -(psum a) = -(psum b) → a = b := by
    intro a ha b hb h
    exact hs a ha b hb (neg_inj.mp h)
  have hdneg : ∀ a ∈ l, ∀ b ∈ l, -(pdiff a) = -(pdiff b) → a = b := by
    intro a ha b hb h
    exact hd a ha b hb (neg_inj.mp h)
  have h1 : argminKey psum l = argminKey psum l' := argminKey_perm psum hp hs
  have h2 : argminKey (fun a => -(psum a)) l = argminKey (fun a => -(psum a)) l' :=
    argminKey_perm _ hp hsneg
  have h3 : argminKey pdiff l = argminKey pdiff l' := argminKey_perm pdiff hp hd
  have h4 : argminKey (fun a => -(pdiff a)) l = argminKey (fun a => -(pdiff a)) l' :=
    argminKey_perm _ hp hdneg
  have horder : orderPoints l = orderPoints l' := by
    unfold orderPoints argmaxKey
    rw [h1, h2, h3, h4]
  refine ⟨horder, ?_⟩
  intro α warp img
  unfold applyPerspectiveCorrection
  rw [hp.length_eq, horder]

/-- A concrete quadrilateral with pairwise-distinct corner sums and
differences, listed here in clockwise order starting at the top-left. -/
def quadA : List CornerPoint := [(0, 0), (10, 0), (10, 8), (0, 8)]

/-- Witness for C2: reversing the listing order of `quadA`'s corners leaves
the canonical ordering unchanged, and that ordering is the geometric one. -/
theorem corner_order_perm_invariant_witness :
    orderPoints quadA = orderPoints quadA.reverse ∧
    orderPoints quadA = some ⟨(0, 0), (10, 0), (10, 8), (0, 8)⟩ :=
  ⟨(corner_order_perm_invariant (List.reverse_perm quadA).symm
      (by decide) (by decide)).1,
   by decide⟩

/-- Claim C5: whenever the perspective-transform computation or the warp
fails (singular matrix, degenerate or collinear quadrilateral, malformed
corner array), `apply_perspective_correction` returns the original raster
unchanged; being a total function into the raster type, it never propagates
an exception to its caller. -/
theorem perspective_failure_returns_original {α : Type}
    (warp : RectOrder → ℕ → ℕ → α → Except Unit α) (img : α)
    (corners : List CornerPoint)
    (hfail : ∀ rect mw mh, warp rect mw mh img = Except.error ()) :
    applyPerspectiveCorrection warp img corners = img := by
  unfold applyPerspectiveCorrection
  by_cases hlen : corners.length = 4
  · rw [if_pos hlen]
    cases ho : orderPoints corners with
    | none => rfl
    | some rect =>
      have hw := hfail rect (maxWidthOf rect) (maxHeightOf rect)
      simp [hw]
  · rw [if_neg hlen]

/-- Witness for C5: a warp oracle that always reports a singular transform
leaves a concrete raster untouched. -/
theorem perspective_failure_returns_original_witness :
    applyPerspectiveCorrection (fun _ _ _ _ => (Except.error () : Except Unit ℕ))
      7 quadA = 7 :=
  perspective_failure_returns_original _ 7 quadA (fun _ _ _ => rfl)

/-! ## scanner.py: edge detection -/

/-- A contour as returned by `cv2.findContours`: a list of pixel points. -/
abbrev Contour : Type := List CornerPoint

/-- The OpenCV primitives used by `detect_document_edges`, treated as an
external oracle over an abstract raster type `α`: the
grayscale → blur → Canny → `findContours` front end, plus `contourArea`,
`arcLength`, `approxPolyDP` and `boundingRect`. -/
structure EdgeCV (α : Type) where
  findContours : α → List Contour
  contourArea : Contour → ℚ
  arcLength : Contour → ℚ
  approxPolyDP : Contour → ℚ → Contour
  boundingRect : Contour → ℤ × ℤ × ℤ × ℤ

/-- Python's `max(x :: xs, key=key)`: scan left to right, keeping the first
element whose key is not exceeded by a later one. -/
def pyMax {β : Type} (key : β → ℚ) (x : β) (xs : List β) : β :=
  xs.foldl (fun best c => if key best < key c then c else best) x

/-- The degenerate quadrilateral built from a bounding rectangle
(scanner.py line 71): `[[x, y], [x+w, y], [x+w, y+h], [x, y+h]]`. -/
def boundingQuad : ℤ × ℤ × ℤ × ℤ → List CornerPoint
  | (x, y, w, h) => [(x, y), (x + w, y), (x + w, y + h), (x, y + h)]

/-- `detect_document_edges` (scanner.py lines 36-75): no contours yields
`None`; otherwise the largest-area contour is approximated with tolerance
`0.02 * arcLength`; a 4-vertex approximation is returned as-is, anything
else falls back to the bounding rectangle of the largest contour. -/
def detect_document_edges {α : Type} (cv : EdgeCV α) (img : α) :
    Option (List CornerPoint) :=
  match cv.findContours img with
  | [] => none
  | c :: cs =>
    let largest := pyMax cv.contourArea c cs
    let approx := cv.approxPolyDP largest (2 / 100 * cv.arcLength largest)
    if approx.length = 4 then some approx
    else some (boundingQuad (cv.boundingRect largest))

/-- The auto-enhance step of `process_image` (scanner.py lines 223-231):
perspective correction is applied only when edges were detected; a `None`
result keeps the current ROI unchanged. -/
def autoEnhanceStep {α : Type} (cv : EdgeCV α)
    (warp : RectOrder → ℕ → ℕ → α → Except Unit α) (roi : α) : α :=
  match detect_document_edges cv roi with
  | some edges => applyPerspectiveCorrection warp roi edges
  | none => roi

theorem key_le_pyMax_self {β : Type} (key : β → ℚ) :
    ∀ (xs : List β) (x : β), key x ≤ key (pyMax key x xs) := by
  intro xs
  induction xs with
  | nil => intro x; exact le_refl _
  | cons y ys ih =>
    intro x
    show key x ≤ key (pyMax key (if key x < key y then y else x) ys)
    by_cases h : key x < key y
    · rw [if_pos h]
      exact le_trans (le_of_lt h) (ih y)
    · rw [if_neg h]
      exact ih x

theorem key_le_pyMax_of_mem {β : Type} (key : β → ℚ) :
    ∀ (xs : List β) (x b : β), b ∈ xs → key b ≤ key (pyMax key x xs) := by
  intro xs
  induction xs with
  | nil => intro x b hb; exact absurd hb (List.not_mem_nil b)
  | cons y ys ih =>
    intro x b hb
    show key b ≤ key (pyMax key (if key x < key y then y else x) ys)
    rcases List.mem_cons.mp hb with hby | hbt
    · rw [hby]
      by_cases h : key x < key y
      · rw [if_pos h]
        exact key_le_pyMax_self key ys y
      · rw [if_neg h]
        exact le_trans (not_lt.mp h) (key_le_pyMax_self key ys x)
    · exact ih _ b hbt

theorem pyMax_mem {β : Type} (key : β → ℚ) :
    ∀ (xs : List β) (x : β), pyMax key x xs ∈ x :: xs := by
  intro xs
  induction xs with
  | nil => intro x; exact List.mem_cons_self x []
  | cons y ys ih =>
    intro x
    show pyMax key (if key x < key y then y else x) ys ∈ x :: y :: ys
    by_cases h : key x < key y
    · rw [if_pos h]
      rcases List.mem_cons.mp (ih y) with he | ht
      · rw [he]; exact List.mem_cons_of_mem x (List.mem_cons_self y ys)
      · exact List.mem_cons_of_mem x (List.mem_cons_of_mem y ht)
    · rw [if_neg h]
      rcases List.mem_cons.mp (ih x) with he | ht
      · rw [he]; exact List.mem_cons_self x (y :: ys)
      · exact List.mem_cons_of_mem x (List.mem_cons_of_mem y ht)

/-! ## Claim C6 -/

/-- Claim C6: `detect_document_edges` returns the polygon approximation of a
largest-area contour exactly when it has 4 vertices, otherwise the
axis-aligned bounding rectangle of that contour as a degenerate
quadrilateral, and `none` (an ordinary value, not an error) when no contours
exist — in which case the auto-enhance step of `process_image` keeps the
current ROI as the working region without applying perspective
correction. -/
theorem edge_detection_cases {α : Type} (cv : EdgeCV α)
    (warp : RectOrder → ℕ → ℕ → α → Except Unit α) (img : α) :
    (cv.findContours img = [] →
       detect_document_edges cv img = none ∧ autoEnhanceStep cv warp img = img) ∧
    (∀ c cs, cv.findContours img = c :: cs →
       pyMax cv.contourArea c cs ∈ c :: cs ∧
       (∀ d ∈ c :: cs, cv.contourArea d ≤ cv.contourArea (pyMax cv.contourArea c cs)) ∧
       (let largest := pyMax cv.contourArea c cs
        let approx := cv.approxPolyDP largest (2 / 100 * cv.arcLength largest)
        (approx.length = 4 → detect_document_edges cv img = some approx) ∧
        (approx.length ≠ 4 →
           detect_document_edges cv img =
             some (boundingQuad (cv.boundingRect largest))))) := by
  constructor
  · intro hnil
    constructor
    · unfold detect_document_edges
      rw [hnil]
    · unfold autoEnhanceStep detect_document_edges
      rw [hnil]
  · intro c cs hcons
    refine ⟨pyMax_mem cv.contourArea cs c, ?_, ?_, ?_⟩
    · intro d hd
      rcases List.mem_cons.mp hd with hdc | hdt
      · rw [hdc]
        exact key_le_pyMax_self cv.contourArea cs c
      · exact key_le_pyMax_of_mem cv.contourArea cs c d hdt
    · intro h4
      unfold detect_document_edges
      rw [hcons]
      simp only [h4, if_pos]
    · intro h4
      unfold detect_document_edges
      rw [hcons]
      simp only [h4, if_neg, if_false]

/-- A concrete oracle whose edge-search front end finds no contours. -/
def cvNoContours : EdgeCV ℕ :=
  { findContours := fun _ => []
    contourArea := fun _ => 0
    arcLength := fun _ => 0
    approxPolyDP := fun c _ => c
    boundingRect := fun _ => (0, 0, 0, 0) }

/-- Witness for C6: with no contours, detection reports `none` and the
auto-enhance step leaves the concrete ROI untouched. -/
theorem edge_detection_cases_witness :
    detect_document_edges cvNoContours 5 = none ∧
    autoEnhanceStep cvNoContours (fun _ _ _ _ => Except.error ()) 5 = 5 :=
  (edge_detection_cases cvNoContours (fun _ _ _ _ => Except.error ()) 5).1 rfl

/-! ## scanner.py: image enhancement -/

/-- A pixel buffer as `enhance_document_image` sees it: either a
single-channel grayscale grid or a three-channel grid; for the OpenCV
side the channels are ordered B,G,R and for the PIL side R,G,B. -/
inductive ChannelImage
  | gray (rows : List (List ℕ))
  | color (rows : List (List (ℕ × ℕ × ℕ)))
  deriving DecidableEq

/-- The channel swap performed by `cv2.cvtColor(..., COLOR_BGR2RGB)` and by
`cv2.cvtColor(..., COLOR_RGB2BGR)`: reverse the order of the three
channels. -/
def swapRB : ℕ × ℕ × ℕ → ℕ × ℕ × ℕ
  | (b, g, r) => (r, g, b)

/-- Conversion of the OpenCV buffer to a PIL image (scanner.py lines
124-128): grayscale buffers pass through `Image.fromarray` unchanged; color
buffers are converted BGR→RGB first. -/
def cvToPil : ChannelImage → ChannelImage
  | ChannelImage.gray rows => ChannelImage.gray rows
  | ChannelImage.color rows => ChannelImage.color (rows.map (List.map swapRB))

/-- Conversion back to OpenCV format (scanner.py lines 145-149), branching
on the shape of the ORIGINAL input: grayscale passes through `np.array`;
color is converted RGB→BGR. -/
def pilToCv (originalGray : Bool) (pil : ChannelImage) : ChannelImage :=
  if originalGray then pil
  else
    match pil with
    | ChannelImage.gray rows => ChannelImage.gray rows
    | ChannelImage.color rows => ChannelImage.color (rows.map (List.map swapRB))

/-- The PIL `ImageEnhance` stages, external to the repository: each takes
the factor and the current PIL image. -/
structure PilEnhance where
  brightness : ℚ → ChannelImage → ChannelImage
  contrast : ℚ → ChannelImage → ChannelImage
  sharpness : ℚ → ChannelImage → ChannelImage

/-- `enhance_document_image` (scanner.py lines 121-155): convert to PIL,
apply each enhancement stage only when its factor differs from 1.0, convert
back to the OpenCV layout of the original input. -/
def enhance_document_image (pe : PilEnhance) (img : ChannelImage)
    (brightness contrast sharpness : ℚ) : ChannelImage :=
  let originalGray := match img with
    | ChannelImage.gray _ => true
    | ChannelImage.color _ => false
  let p0 := cvToPil img
  let p1 := if brightness ≠ 1 then pe.brightness brightness p0 else p0
  let p2 := if contrast ≠ 1 then pe.contrast contrast p1 else p1
  let p3 := if sharpness ≠ 1 then pe.sharpness sharpness p2 else p2
  pilToCv originalGray p3

theorem swapRB_swapRB (p : ℕ × ℕ × ℕ) : swapRB (swapRB p) = p := by
  rcases p with ⟨b, g, r⟩
  rfl

/-! ## Claim C9 -/

/-- Claim C9: with brightness, contrast and sharpness all equal to the
identity factor 1.0, `enhance_document_image` skips all three enhancement
stages and returns a buffer pixel-for-pixel equal to its input (the
BGR→RGB→BGR round trip is the identity). -/
theorem enhance_identity_noop (pe : PilEnhance) (img : ChannelImage) :
    enhance_document_image pe img 1 1 1 = img := by
  unfold enhance_document_image
  simp only [ne_eq, not_true_eq_false, if_false, ite_false]
  cases img with
  | gray rows => rfl
  | color rows =>
    show pilToCv false (cvToPil (ChannelImage.color rows)) = ChannelImage.color rows
    unfold cvToPil pilToCv
    simp only [Bool.false_eq_true, if_false, List.map_map]
    congr 1
    have hrow : ∀ row : List (ℕ × ℕ × ℕ),
        (List.map swapRB ∘ List.map swapRB) row = id row := by
      intro row
      simp only [Function.comp_apply, List.map_map, id_eq]
      have : (swapRB ∘ swapRB) = id := by
        funext p
        exact swapRB_swapRB p
      rw [this, List.map_id]
    calc rows.map (List.map swapRB ∘ List.map swapRB)
        = rows.map id := List.map_congr_left (fun row _ => hrow row)
      _ = rows := List.map_id rows

/-! ## scanner.py: frontend crop clamping in process_image -/

/-- Python's `int()` on a float value: truncation toward zero, modelled on
exact rationals. -/
def pyInt (q : ℚ) : ℤ := if 0 ≤ q then ⌊q⌋ else ⌈q⌉

/-- The `crop_coords_from_frontend` dictionary: x, y, width, height as sent
by Cropper.js (floats). -/
structure CropCoords where
  x : ℚ
  y : ℚ
  width : ℚ
  height : ℚ

/-- The clamping of the frontend crop (scanner.py lines 193-205):
`x_f = max(0, min(x_f, w_rotated - 1 if w_rotated > 0 else 0))`, the same
for `y_f`, then `w_f = max(1, min(w_f, w_rotated - x_f))` and
`h_f = max(1, min(h_f, h_rotated - y_f))`. -/
def clampCrop (wRot hRot : ℤ) (c : CropCoords) : ℤ × ℤ × ℤ × ℤ :=
  let xf0 := pyInt c.x
  let yf0 := pyInt c.y
  let wf0 := pyInt c.width
  let hf0 := pyInt c.height
  let xf := max 0 (min xf0 (if 0 < wRot then wRot - 1 else 0))
  let yf := max 0 (min yf0 (if 0 < hRot then hRot - 1 else 0))
  let wf := max 1 (min wf0 (wRot - xf))
  let hf := max 1 (min hf0 (hRot - yf))
  (xf, yf, wf, hf)

/-- The ROI rectangle selected by `process_image` (scanner.py lines
187-214): the clamped crop when the frontend reported positive width and
height, the full rotated frame otherwise. -/
def roiRect (wRot hRot : ℤ) (crop : Option CropCoords) : ℤ × ℤ × ℤ × ℤ :=
  match crop with
  | some c =>
    if 0 < c.width ∧ 0 < c.height then clampCrop wRot hRot c
    else (0, 0, wRot, hRot)
  | none => (0, 0, wRot, hRot)

/-- The numpy slice `img[y:y+h, x:x+w]` on a row-major pixel grid. -/
def sliceRows {β : Type} (rows : List (List β)) (x y w h : ℤ) : List (List β) :=
  ((rows.drop y.toNat).take h.toNat).map (fun r => (r.drop x.toNat).take w.toNat)

/-! ## Claim C10 -/

/-- Claim C10: for a frontend crop with positive reported width and height
on a non-degenerate rotated image, `process_image` clamps origin and extent
so that the ROI lies within the rotated bounds with width and height at
least 1; consequently the numpy slice is in bounds and returns a raster
with exactly that many rows and columns — never an empty one. -/
theorem crop_clamp_safe (wRot hRot : ℤ) (c : CropCoords)
    (hw : 0 < wRot) (hh : 0 < hRot) (hcw : 0 < c.width) (hch : 0 < c.height) :
    roiRect wRot hRot (some c) = clampCrop wRot hRot c ∧
    (0 ≤ (clampCrop wRot hRot c).1 ∧
     0 ≤ (clampCrop wRot hRot c).2.1 ∧
     1 ≤ (clampCrop wRot hRot c).2.2.1 ∧
     1 ≤ (clampCrop wRot hRot c).2.2.2 ∧
     (clampCrop wRot hRot c).1 + (clampCrop wRot hRot c).2.2.1 ≤ wRot ∧
     (clampCrop wRot hRot c).2.1 + (clampCrop wRot hRot c).2.2.2 ≤ hRot) ∧
    (∀ {β : Type} (rows : List (List β)),
       rows.length = hRot.toNat →
       (∀ r ∈ rows, r.length = wRot.toNat) →
       (sliceRows rows (clampCrop wRot hRot c).1 (clampCrop wRot hRot c).2.1
            (clampCrop wRot hRot c).2.2.1 (clampCrop wRot hRot c).2.2.2).length =
          (clampCrop wRot hRot c).2.2.2.toNat ∧
       ∀ r ∈ sliceRows rows (clampCrop wRot hRot c).1 (clampCrop wRot hRot c).2.1
            (clampCrop wRot hRot c).2.2.1 (clampCrop wRot hRot c).2.2.2,
         r.length = (clampCrop wRot hRot c).2.2.1.toNat) := by
  have hroi : roiRect wRot hRot (some c) = clampCrop wRot hRot c := by
    simp only [roiRect]
    rw [if_pos (And.intro hcw hch)]
  obtain ⟨xf, yf, wf, hf, hq⟩ :
      ∃ xf yf wf hf, clampCrop wRot hRot c = (xf, yf, wf, hf) :=
    ⟨_, _, _, _, rfl⟩
  have hx : xf = max 0 (min (pyInt c.x) (if 0 < wRot then wRot - 1 else 0)) := by
    have := congrArg (fun q : ℤ × ℤ × ℤ × ℤ => q.1) hq
    simpa [clampCrop] using this.symm
  have hy : yf = max 0 (min (pyInt c.y) (if 0 < hRot then hRot - 1 else 0)) := by
    have := congrArg (fun q : ℤ × ℤ × ℤ × ℤ => q.2.1) hq
    simpa [clampCrop] using this.symm
  have hwf : wf = max 1 (min (pyInt c.width) (wRot -
      max 0 (min (pyInt c.x) (if 0 < wRot then wRot - 1 else 0)))) := by
    have := congrArg (fun q : ℤ × ℤ × ℤ × ℤ => q.2.2.1) hq
    simpa [clampCrop] using this.symm
  have hhf : hf = max 1 (min (pyInt c.height) (hRot -
      max 0 (min (pyInt c.y) (if 0 < hRot then hRot - 1 else 0)))) := by
    have := congrArg (fun q : ℤ × ℤ × ℤ × ℤ => q.2.2.2) hq
    simpa [clampCrop] using this.symm
  rw [if_pos hw] at hx hwf
  rw [if_pos hh] at hy hhf
  have hxb : 0 ≤ xf ∧ xf ≤ wRot - 1 := by
    constructor
    · rw [hx]; exact le_max_left 0 _
    · rw [hx]
      apply max_le
      · omega
      · exact min_le_right _ _
  have hyb : 0 ≤ yf ∧ yf ≤ hRot - 1 := by
    constructor
    · rw [hy]; exact le_max_left 0 _
    · rw [hy]
      apply max_le
      · omega
      · exact min_le_right _ _
  have hwb : 1 ≤ wf ∧ xf + wf ≤ wRot := by
    constructor
    · rw [hwf]; exact le_max_left 1 _
    · have h1 : wf ≤ wRot - xf := by
        rw [hwf, hx]
        apply max_le
        · omega
        · exact min_le_right _ _
      omega
  have hhb : 1 ≤ hf ∧ yf + hf ≤ hRot := by
    constructor
    · rw [hhf]; exact le_max_left 1 _
    · have h1 : hf ≤ hRot - yf := by
        rw [hhf, hy]
        apply max_le
        · omega
        · exact min_le_right _ _
      omega
  rw [hq]
  dsimp only
  refine ⟨hroi.trans hq, ⟨hxb.1, hyb.1, hwb.1, hhb.1, hwb.2, hhb.2⟩, ?_⟩
  intro β rows hrows hcols
  have hlen : ((rows.drop yf.toNat).take hf.toNat).length = hf.toNat := by
    rw [List.length_take, List.length_drop, hrows]
    omega
  constructor
  · unfold sliceRows
    rw [List.length_map]
    exact hlen
  · intro r hr
    unfold sliceRows at hr
    rcases List.mem_map.mp hr with ⟨r0, hr0, hrr⟩
    have hr0mem : r0 ∈ rows := List.mem_of_mem_drop (List.mem_of_mem_take hr0)
    have hr0len : r0.length = wRot.toNat := hcols r0 hr0mem
    rw [← hrr, List.length_take, List.length_drop, hr0len]
    omega

/-- Witness for C10: a 200×200 crop at (10, 10) on a 100×50 rotated frame is
clamped to the in-bounds rectangle (10, 10, 90, 40). -/
theorem crop_clamp_safe_witness :
    clampCrop 100 50 ⟨10, 10, 200, 200⟩ = (10, 10, 90, 40) ∧
    (0 ≤ (clampCrop 100 50 ⟨10, 10, 200, 200⟩).1 ∧
     0 ≤ (clampCrop 100 50 ⟨10, 10, 200, 200⟩).2.1 ∧
     1 ≤ (clampCrop 100 50 ⟨10, 10, 200, 200⟩).2.2.1 ∧
     1 ≤ (clampCrop 100 50 ⟨10, 10, 200, 200⟩).2.2.2 ∧
     (clampCrop 100 50 ⟨10, 10, 200, 200⟩).1 +
       (clampCrop 100 50 ⟨10, 10, 200, 200⟩).2.2.1 ≤ 100 ∧
     (clampCrop 100 50 ⟨10, 10, 200, 200⟩).2.1 +
       (clampCrop 100 50 ⟨10, 10, 200, 200⟩).2.2.2 ≤ 50) :=
  ⟨by decide,
   (crop_clamp_safe 100 50 ⟨10, 10, 200, 200⟩
      (by decide) (by decide) (by decide) (by decide)).2.1⟩

/-! ## ocr.py: searchable-PDF synthesis -/

/-- Whether an `Except`-modelled library call succeeded. -/
def isOkE {ε β : Type} : Except ε β → Bool
  | Except.ok _ => true
  | Except.error _ => false

/-- A source page as seen by the pdf-mode loop of `convert_pdf_to_ocr`:
the page rectangle in points, the pixmap dimensions at 300 DPI, the outcome
of the OCR `try` block (ocr.py lines 86-108, caught at 118), the outcome of
the pixmap regeneration used as background (ocr.py lines 149-156, caught at
154), and the per-run behaviour of `new_page.insert_text` (ocr.py lines
292-295, caught at 294). -/
structure PdfPage where
  pageW : ℚ
  pageH : ℚ
  pixW : ℚ
  pixH : ℚ
  ocrChain : Except Unit (List OcrLine)
  backgroundDraw : Except Unit Unit
  insertOk : TextRun → Bool

/-- The text runs inserted on one output page by the layering loops (ocr.py
lines 167-304): an OCR failure leaves `ocr_results` empty, so nothing is
inserted; otherwise the outer loop at line 171 iterates once per recognized
line and its inner loop at line 267 attempts to insert every line, skipping
exactly those whose `insert_text` raises. -/
def pageRuns (pg : PdfPage) : List TextRun :=
  match pg.ocrChain with
  | Except.error _ => []
  | Except.ok results =>
    (results.map (fun _ =>
      results.filterMap (fun l =>
        let run := mapLine pg.pageW pg.pageH pg.pixW pg.pixH l
        if pg.insertOk run then some run else none))).flatten

/-- One page of the output document: dimensions copied from the source page
(ocr.py line 142), whether the background image was drawn (line 152), and
the inserted invisible text runs. -/
structure OutPage where
  pageW : ℚ
  pageH : ℚ
  hasBackground : Bool
  textRuns : List TextRun
  deriving DecidableEq

/-- Synthesis of one output page in pdf mode (ocr.py lines 131-306). -/
def synthPage (pg : PdfPage) : OutPage :=
  { pageW := pg.pageW
    pageH := pg.pageH
    hasBackground := isOkE pg.backgroundDraw
    textRuns := pageRuns pg }

/-- The pdf-mode page loop: `output_pdf_doc.new_page` appends one page per
source page, in source order. -/
def convertPdf (pages : List PdfPage) : List OutPage :=
  pages.foldl (fun doc pg => doc ++ [synthPage pg]) []

theorem convertPdf_eq_map (pages : List PdfPage) :
    convertPdf pages = pages.map synthPage := by
  have hgen : ∀ (ps : List PdfPage) (acc : List OutPage),
      ps.foldl (fun doc pg => doc ++ [synthPage pg]) acc = acc ++ ps.map synthPage := by
    intro ps
    induction ps with
    | nil => intro acc; simp
    | cons p t ih =>
      intro acc
      simp only [List.foldl_cons, List.map_cons, ih, List.append_assoc,
        List.singleton_append]
  unfold convertPdf
  rw [hgen]
  simp

theorem pageRuns_error (pg : PdfPage) (hfail : pg.ocrChain = Except.error ()) :
    pageRuns pg = [] := by
  unfold pageRuns
  rw [hfail]

theorem pageRuns_ok (pg : PdfPage) (results : List OcrLine)
    (hok : pg.ocrChain = Except.ok results) :
    pageRuns pg = (results.map (fun _ =>
      results.filterMap (fun l =>
        let run := mapLine pg.pageW pg.pageH pg.pixW pg.pixH l
        if pg.insertOk run then some run else none))).flatten := by
  unfold pageRuns
  rw [hok]

/-! ## Claim C3 -/

/-- Counterexample for C3 as stated: the caller-visible document-level
result of text-mode `convert_pdf_to_ocr` (the written file; the function
itself returns `None` and only prints messages) is byte-identical for a
one-page document whose only page failed OCR and for a one-page document
whose only page succeeded by direct extraction — so that result cannot
report total/succeeded/failed page counts. -/
theorem doc_report_counterexample :
    convertText false OutputFormat.txt [⟨"", Except.error ()⟩] =
      convertText false OutputFormat.txt [⟨"[OCR Error on page 1]", Except.ok []⟩] ∧
    failedPageCount false [⟨"", Except.error ()⟩] = 1 ∧
    failedPageCount false [⟨"[OCR Error on page 1]", Except.ok []⟩] = 0 := by
  refine ⟨?_, ?_, ?_⟩ <;> decide

/-- Claim C3 (amended): a per-page exception in the OCR chain is caught and
absorbed (an in-band placeholder string in text mode, an empty text layer in
pdf mode), processing continues, and pdf mode still emits exactly one output
page per source page, in order, with the failed page carrying the background
image and no text runs; but the function returns no document-level
total/succeeded/failed page counts. -/
theorem per_page_failure_isolated (pages : List PdfPage) (pg : PdfPage)
    (hmem : pg ∈ pages) (hfail : pg.ocrChain = Except.error ()) :
    convertPdf pages = pages.map synthPage ∧
    (convertPdf pages).length = pages.length ∧
    synthPage pg ∈ convertPdf pages ∧
    (synthPage pg).textRuns = [] ∧
    (synthPage pg).hasBackground = isOkE pg.backgroundDraw := by
  have hmap := convertPdf_eq_map pages
  refine ⟨hmap, ?_, ?_, ?_, rfl⟩
  · rw [hmap, List.length_map]
  · rw [hmap]
    exact List.mem_map_of_mem synthPage hmem
  · show pageRuns pg = []
    exact pageRuns_error pg hfail

/-- A concrete pdf-mode page whose OCR chain raised. -/
def pgFail : PdfPage :=
  { pageW := 612, pageH := 792, pixW := 2550, pixH := 3300
    ocrChain := Except.error ()
    backgroundDraw := Except.ok ()
    insertOk := fun _ => true }

/-- Witness for the amended C3: a one-page document whose page failed OCR
still yields one output page with a background and no text layer. -/
theorem per_page_failure_isolated_witness :
    (convertPdf [pgFail]).length = [pgFail].length ∧
    (synthPage pgFail).textRuns = [] ∧
    (synthPage pgFail).hasBackground = isOkE pgFail.backgroundDraw :=
  ⟨(per_page_failure_isolated [pgFail] pgFail (List.mem_singleton.mpr rfl) rfl).2.1,
   (per_page_failure_isolated [pgFail] pgFail (List.mem_singleton.mpr rfl) rfl).2.2.2.1,
   (per_page_failure_isolated [pgFail] pgFail (List.mem_singleton.mpr rfl) rfl).2.2.2.2⟩

/-! ## Claim C7 -/

/-- Claim C7: during searchable-PDF synthesis, a failure to insert one
recognized line's text is caught and only that line is skipped — every line
whose insertion succeeds still lands on the page, and the page itself is
synthesized; a page whose recognition returned zero lines still produces
exactly one output page containing only the background image. -/
theorem line_insert_failure_isolated (pg : PdfPage) (results : List OcrLine)
    (hok : pg.ocrChain = Except.ok results) :
    (convertPdf [pg]).length = 1 ∧
    (∀ l ∈ results,
       pg.insertOk (mapLine pg.pageW pg.pageH pg.pixW pg.pixH l) = true →
       mapLine pg.pageW pg.pageH pg.pixW pg.pixH l ∈ (synthPage pg).textRuns) ∧
    (results = [] → (synthPage pg).textRuns = []) ∧
    (synthPage pg).hasBackground = isOkE pg.backgroundDraw := by
  refine ⟨?_, ?_, ?_, rfl⟩
  · rw [convertPdf_eq_map]
    rfl
  · intro l hl hins
    have hmemf : mapLine pg.pageW pg.pageH pg.pixW pg.pixH l ∈
        results.filterMap (fun l' =>
          let run := mapLine pg.pageW pg.pageH pg.pixW pg.pixH l'
          if pg.insertOk run then some run else none) := by
      apply List.mem_filterMap.mpr
      refine ⟨l, hl, ?_⟩
      show (if pg.insertOk (mapLine pg.pageW pg.pageH pg.pixW pg.pixH l)
            then some (mapLine pg.pageW pg.pageH pg.pixW pg.pixH l) else none) =
          some (mapLine pg.pageW pg.pageH pg.pixW pg.pixH l)
      rw [if_pos hins]
    show mapLine pg.pageW pg.pageH pg.pixW pg.pixH l ∈ pageRuns pg
    rw [pageRuns_ok pg results hok]
    apply List.mem_flatten.mpr
    exact ⟨_, List.mem_map_of_mem _ hl, hmemf⟩
  · intro hres
    show pageRuns pg = []
    rw [pageRuns_ok pg results hok, hres]
    rfl

/-- A recognized line whose insertion succeeds. -/
def lineGood : OcrLine :=
  { x0 := 0, y0 := 0, x1 := 100, y1 := 20, text := "good", score := 1 }

/-- A recognized line whose insertion raises (e.g. unencodable text). -/
def lineBad : OcrLine :=
  { x0 := 0, y0 := 30, x1 := 100, y1 := 50, text := "bad", score := 1 }

/-- A concrete pdf-mode page on which inserting `lineBad` fails. -/
def pgMixed : PdfPage :=
  { pageW := 100, pageH := 100, pixW := 100, pixH := 100
    ocrChain := Except.ok [lineGood, lineBad]
    backgroundDraw := Except.ok ()
    insertOk := fun r => r.text != "bad" }

/-- Witness for C7: on `pgMixed`, the failing line is skipped but the good
line's run is still inserted and the page is still produced. -/
theorem line_insert_failure_isolated_witness :
    mapLine 100 100 100 100 lineGood ∈ (synthPage pgMixed).textRuns ∧
    (convertPdf [pgMixed]).length = 1 :=
  ⟨(line_insert_failure_isolated pgMixed [lineGood, lineBad] rfl).2.1 lineGood
      (by decide) (by decide),
   (line_insert_failure_isolated pgMixed [lineGood, lineBad] rfl).1⟩

/-! ## Claim C8 -/

/-- Counterexample for C8 as stated: with the default `'txt'` output format
the written text for a two-page document is the plain concatenation of the
two page texts — no page-separator marker of any kind (in particular not
`mdSeparator`) stands between them. -/
theorem txt_separator_counterexample :
    convertText false OutputFormat.txt
        [⟨"A", Except.ok []⟩, ⟨"B", Except.ok []⟩] = "AB" ∧
    ¬ ∃ s t : String,
        convertText false OutputFormat.txt
            [⟨"A", Except.ok []⟩, ⟨"B", Except.ok []⟩] =
          s ++ mdSeparator ++ t := by
  have hout : convertText false OutputFormat.txt
      [⟨"A", Except.ok []⟩, ⟨"B", Except.ok []⟩] = "AB" := by decide
  refine ⟨hout, ?_⟩
  rintro ⟨s, t, h⟩
  rw [hout] at h
  have hsep : mdSeparator.length = 7 := by decide
  have h2 : ("AB" : String).length = 2 := by decide
  have hlen := congrArg String.length h
  rw [String.length_append, String.length_append, hsep, h2] at hlen
  omega

/-- Claim C8 (amended): the page-separator marker is emitted only for the
markdown output format, where it follows every page's text (hence stands
between each pair of consecutive pages); with the `'txt'` format consecutive
page texts are concatenated with nothing between them. -/
theorem page_separator_amended (forceOcr : Bool) (fmt : OutputFormat)
    (pg : Page) (rest : List Page) (n : ℕ) :
    convertText forceOcr fmt (pg :: rest) = allTextFrom forceOcr fmt (pg :: rest) 0 ∧
    allTextFrom forceOcr OutputFormat.md (pg :: rest) n =
      pageTextOf forceOcr pg n ++ mdSeparator ++
        allTextFrom forceOcr OutputFormat.md rest (n + 1) ∧
    allTextFrom forceOcr OutputFormat.txt (pg :: rest) n =
      pageTextOf forceOcr pg n ++ allTextFrom forceOcr OutputFormat.txt rest (n + 1) := by
  refine ⟨rfl, ?_, ?_⟩
  · show chunkOf forceOcr OutputFormat.md pg n ++
        allTextFrom forceOcr OutputFormat.md rest (n + 1) =
      pageTextOf forceOcr pg n ++ mdSeparator ++
        allTextFrom forceOcr OutputFormat.md rest (n + 1)
    unfold chunkOf
    rfl
  · show chunkOf forceOcr OutputFormat.txt pg n ++
        allTextFrom forceOcr OutputFormat.txt rest (n + 1) =
      pageTextOf forceOcr pg n ++ allTextFrom forceOcr OutputFormat.txt rest (n + 1)
    unfold chunkOf
    simp
